import Mathlib

/-!
Shallow embedding of `drivers/staging/android/lowmemorykiller.c` (a Samsung
2.6-series Android kernel tree).  The driver walks a table of
(oom_adj cutoff, minfree, minfile) tiers against global page counters, and on a
breach scans all processes, killing the one with the highest `oom_adj`
(ties broken by largest resident set, first seen wins full ties).

Machine integers of the C code are modelled as `Int` (C `int`) and `Nat`
(unsigned counters returned by `global_page_state`, which clamps each counter
at zero before returning it).  The one place where C's unsigned conversion
semantics matter — `fudgeswap > si.freeswap`, an `int` compared against an
`unsigned long` — is modelled with an explicit reduction modulo `2 ^ 64`, and
`time_before_eq` (a signed comparison of `unsigned long` differences) is
modelled through `signed64`.
-/

namespace LMK

/-- OOM_ADJUST_MAX from include/linux/oom.h. -/
def OOM_ADJUST_MAX : Int := 15

/-- The global page counters read at the top of `lowmem_shrink` via
`global_page_state`, plus `si.freeswap` from `si_swapinfo`.  Each is an
unsigned counter. -/
structure Snapshot where
  nr_free : Nat
  nr_file : Nat
  nr_shmem : Nat
  nr_active_file : Nat
  nr_inactive_file : Nat
  nr_active_anon : Nat
  nr_inactive_anon : Nat
  freeswap : Nat
deriving DecidableEq

/-- The module-parameter state of the driver: the three parallel tier arrays
(`lowmem_adj`, `lowmem_minfree`, `lowmem_minfile`, each with static capacity
6), their declared element counts, the `lowmem_check_filepages` toggle and the
`fudgeswap` budget. -/
structure Config where
  adj : List Int
  adj_size : Nat
  minfree : List Int
  minfree_size : Nat
  minfile : List Int
  minfile_size : Nat
  check_filepages : Bool
  fudgeswap : Int
deriving DecidableEq

/-- One process as seen by the scan loop: `PF_KTHREAD` flag, whether
`find_lock_task_mm` succeeds, the `TIF_MEMDIE` flag, `p->signal->oom_adj` and
`get_mm_rss(p->mm)`. -/
structure Proc where
  pid : Nat
  kthread : Bool
  has_mm : Bool
  memdie : Bool
  oom_adj : Int
  rss : Int
deriving DecidableEq

/-- The only module-global the shrink path reads besides the parameter
arrays: `lowmem_deathpending_timeout` (statically initialised to 0 and, in
this source file, never assigned). -/
structure LmkState where
  deathpending_timeout : Int
deriving DecidableEq

/-- Reinterpret a 64-bit unsigned value as a signed 64-bit quantity,
as C's cast to `long` does. -/
def signed64 (x : Int) : Int := (x + 2 ^ 63) % 2 ^ 64 - 2 ^ 63

/-- Kernel macro `time_before_eq(a, b)`, i.e. `(long)((a) - (b)) <= 0` on
`unsigned long` jiffies values. -/
def timeBeforeEq (a b : Int) : Bool := signed64 (a - b) ≤ 0

/-- Lines 136-148: credit free swap toward `other_file`.  `fudgeswap` is a C
`int`; comparing it against the `unsigned long` `si.freeswap` converts it to
`unsigned long` first, hence the reduction modulo `2 ^ 64`. -/
def otherFileVal (fudgeswap : Int) (freeswap : Nat) (base : Int) : Int :=
  if fudgeswap ≠ 0 then
    if 0 < freeswap then
      if (freeswap : Int) < fudgeswap % 2 ^ 64 then base + freeswap
      else base + fudgeswap
    else base
  else base

/-- Lines 129, 150-153: `array_size = ARRAY_SIZE(lowmem_adj)` (statically 6),
lowered to `lowmem_adj_size` and then `lowmem_minfree_size` when they are
smaller.  `lowmem_minfile_size` is not consulted. -/
def arraySize (cfg : Config) : Nat := min (min 6 cfg.adj_size) cfg.minfree_size

/-- One logical tier: `lowmem_adj[i]`, `lowmem_minfree[i]`, `lowmem_minfile[i]`. -/
structure Tier where
  adj : Int
  minfree : Int
  minfile : Int
deriving DecidableEq

/-- The tier table actually walked by the loop at lines 154-164: indices
`0 ≤ i < array_size` of the three parallel arrays. -/
def tiers (cfg : Config) : List Tier :=
  (List.range (arraySize cfg)).map fun i =>
    ⟨cfg.adj.getD i 0, cfg.minfree.getD i 0, cfg.minfile.getD i 0⟩

/-- The breach test of lines 155-158: `other_free < lowmem_minfree[i] &&
(other_file < lowmem_minfree[i] || (lowmem_check_filepages && lru_file <
lowmem_minfile[i]))`. -/
def breached (cfg : Config) (other_free other_file lru_file : Int) (t : Tier) : Bool :=
  decide (other_free < t.minfree) &&
    (decide (other_file < t.minfree) ||
      (cfg.check_filepages && decide (lru_file < t.minfile)))

/-- The tier at which the loop of lines 154-164 breaks: the first breached
tier in walk order, if any. -/
def findBreachTier (cfg : Config) (other_free other_file lru_file : Int) : Option Tier :=
  (tiers cfg).find? (breached cfg other_free other_file lru_file)

/-- The `evaluate_pressure` contract of the spec, read off the same loop:
the priority cutoff of the first breached tier. -/
def evalPressure (cfg : Config) (other_free other_file lru_file : Int) : Option Int :=
  (findBreachTier cfg other_free other_file lru_file).map Tier.adj

/-- The value of `min_adj` after the loop: the first breached tier's
`lowmem_adj[i]`, or the sentinel `OOM_ADJUST_MAX + 1` when no tier breaks the
loop. -/
def min_adj_of (cfg : Config) (other_free other_file lru_file : Int) : Int :=
  (evalPressure cfg other_free other_file lru_file).getD (OOM_ADJUST_MAX + 1)

/-- Line 130: `other_free = global_page_state(NR_FREE_PAGES)`. -/
def shrinkOtherFree (s : Snapshot) : Int := s.nr_free

/-- Lines 131-132 and 136-148: `other_file = global_page_state(NR_FILE_PAGES)
- global_page_state(NR_SHMEM)`, then the fudgeswap credit. -/
def shrinkOtherFile (cfg : Config) (s : Snapshot) : Int :=
  otherFileVal cfg.fudgeswap s.freeswap ((s.nr_file : Int) - (s.nr_shmem : Int))

/-- Lines 133-134: `lru_file = global_page_state(NR_ACTIVE_FILE) +
global_page_state(NR_INACTIVE_FILE)`. -/
def shrinkLruFile (s : Snapshot) : Int :=
  (s.nr_active_file : Int) + (s.nr_inactive_file : Int)

/-- The `min_adj` computed by one invocation of `lowmem_shrink` from the
snapshot and the parameter state. -/
def shrinkMinAdj (cfg : Config) (s : Snapshot) : Int :=
  min_adj_of cfg (shrinkOtherFree s) (shrinkOtherFile cfg s) (shrinkLruFile s)

/-- Lines 173-176: `rem`, the sum of the four LRU list sizes. -/
def shrinkRem (s : Snapshot) : Int :=
  (s.nr_active_anon : Int) + (s.nr_active_file : Int) +
    (s.nr_inactive_anon : Int) + (s.nr_inactive_file : Int)

/-- Result of the process scan of lines 184-224: either the early
`return 0` at lines 196-201 (a task with `TIF_MEMDIE` inside the
death-pending window aborts the whole evaluation), or the final value of
`selected`. -/
inductive ScanOut where
  | abort
  | done (sel : Option Proc)
deriving DecidableEq

/-- The `for_each_process` loop of lines 185-224, carrying `selected`.
`selected_tasksize` and `selected_oom_adj` always hold the `rss` and
`oom_adj` fields of `selected`, so they are not carried separately. -/
def scanGo (jiffies timeout madj : Int) : List Proc → Option Proc → ScanOut
  | [], best => .done best
  | t :: rest, best =>
    if t.kthread then scanGo jiffies timeout madj rest best
    else if !t.has_mm then scanGo jiffies timeout madj rest best
    else if t.memdie && timeBeforeEq jiffies timeout then .abort
    else if t.oom_adj < madj then scanGo jiffies timeout madj rest best
    else if t.rss ≤ 0 then scanGo jiffies timeout madj rest best
    else
      match best with
      | none => scanGo jiffies timeout madj rest (some t)
      | some s =>
        if t.oom_adj < s.oom_adj then scanGo jiffies timeout madj rest (some s)
        else if t.oom_adj = s.oom_adj ∧ t.rss ≤ s.rss then
          scanGo jiffies timeout madj rest (some s)
        else scanGo jiffies timeout madj rest (some t)

/-- The distinct return paths of `lowmem_shrink`, each tagged with the line
of its `return` and carrying the returned value's data. -/
inductive ShrinkResult where
  | noTier
  | queryOnly (rem : Int)
  | deferred
  | killed (pid : Nat) (freed : Int) (rem : Int)
  | noVictim
deriving DecidableEq

/-- The integer each result path returns to the shrinker core. -/
def ShrinkResult.ret : ShrinkResult → Int
  | .noTier => 0
  | .queryOnly r => r
  | .deferred => 0
  | .killed _ _ r => r
  | .noVictim => -1

/-- The body of `lowmem_shrink` (lines 119-239).  The returned state is the
module-global state after the call; note the source contains no store to
`lowmem_deathpending_timeout`, so the state passes through unchanged on every
path. -/
def lowmem_shrink (cfg : Config) (s : Snapshot) (tasks : List Proc)
    (st : LmkState) (nr_to_scan jiffies : Int) : ShrinkResult × LmkState :=
  let madj := shrinkMinAdj cfg s
  if madj = OOM_ADJUST_MAX + 1 then (.noTier, st)
  else
    let rem := shrinkRem s
    if nr_to_scan ≤ 0 then (.queryOnly rem, st)
    else
      match scanGo jiffies st.deathpending_timeout madj tasks none with
      | .abort => (.deferred, st)
      | .done none => (.noVictim, st)
      | .done (some sel) => (.killed sel.pid sel.rss (rem - sel.rss), st)

/-- The filter of lines 189-211: not a kernel thread, has an mm, `oom_adj`
at or above the cutoff, positive resident set. -/
def eligible (madj : Int) (tasks : List Proc) : List Proc :=
  tasks.filter fun t =>
    !t.kthread && t.has_mm && decide (madj ≤ t.oom_adj) && decide (0 < t.rss)

/-- The (oom_adj, rss) pair ordered lexicographically — the quantity the
running-best comparison of lines 212-218 maximises. -/
def pairF (t : Proc) : Lex (Int × Int) := toLex (t.oom_adj, t.rss)

/-- CONFIG_VOKULMK state: the active `lowmem_minfree` table and the two
profile tables. -/
structure VokState where
  lowmem_minfree : List Int
  minfree_screen_on : List Int
  minfree_screen_off : List Int
deriving DecidableEq

/-- Lines 247-251: save the active table into the screen-on slot, then
install the screen-off table. -/
def low_mem_early_suspend (s : VokState) : VokState :=
  { s with minfree_screen_on := s.lowmem_minfree, lowmem_minfree := s.minfree_screen_off }

/-- Lines 253-256: restore the saved screen-on table. -/
def low_mem_late_resume (s : VokState) : VokState :=
  { s with lowmem_minfree := s.minfree_screen_on }

/-- The table the evaluator provably behaves as: all three arrays cut to
`array_size = min (min 6 adj_size) minfree_size` tiers, the length actually
walked by the loop.  Note `minfile_size` plays no role in this bound. -/
def truncConfig (cfg : Config) : Config :=
  { adj := cfg.adj.take (arraySize cfg), adj_size := arraySize cfg
    minfree := cfg.minfree.take (arraySize cfg), minfree_size := arraySize cfg
    minfile := cfg.minfile.take (arraySize cfg), minfile_size := arraySize cfg
    check_filepages := cfg.check_filepages, fudgeswap := cfg.fudgeswap }

/-- Definition following the spec words: the table cut to the shortest
consistent length across ALL of its parallel fields, `minfile_size`
included. -/
def specShortestConfig (cfg : Config) : Config :=
  let n := min (min 6 cfg.adj_size) (min cfg.minfree_size cfg.minfile_size)
  { adj := cfg.adj.take n, adj_size := n
    minfree := cfg.minfree.take n, minfree_size := n
    minfile := cfg.minfile.take n, minfile_size := n
    check_filepages := cfg.check_filepages, fudgeswap := cfg.fudgeswap }

/-- Definition following the spec words (error taxonomy and the snapshot
non-negativity invariant): the derived file-page counter is clamped at zero
before the swap credit and the tier comparisons. -/
def specClampedOtherFile (cfg : Config) (s : Snapshot) : Int :=
  otherFileVal cfg.fudgeswap s.freeswap (max 0 ((s.nr_file : Int) - (s.nr_shmem : Int)))

/-- The tier table of the spec scenario: `[(0, 768, 1536), (8, 4096, 8192)]`
with the file-page check enabled and no swap credit. -/
def cfgScenario : Config :=
  ⟨[0, 8], 2, [768, 4096], 2, [1536, 8192], 2, true, 0⟩

/-- The snapshot of the spec scenario: free = 2000, file = 5000,
lru_file = 10000. -/
def snapScenario : Snapshot := ⟨2000, 5000, 0, 10000, 0, 0, 0, 0⟩

/-- A one-tier table (cutoff 5, minfree 30) with a swap credit of 50 and the
file-page check off. -/
def cfgNeg : Config := ⟨[5], 1, [30], 1, [0], 1, false, 50⟩

/-- A racy snapshot: `NR_SHMEM` (100) exceeds `NR_FILE_PAGES` (0), so the
derived file-page counter is `-100` before the swap credit. -/
def snapNeg : Snapshot := ⟨10, 0, 100, 0, 0, 0, 0, 1000⟩

/-- A table whose `minfile` array declares only 1 entry while `adj` and
`minfree` declare 6, with the file-page check enabled. -/
def cfgMismatch : Config :=
  ⟨[0, 1, 0, 0, 0, 0], 6, [100, 200, 300, 400, 500, 600], 6,
    [50, 80, 0, 0, 0, 0], 1, true, 0⟩

/-- The default module-parameter table of the driver (lines 56-103), with
the file-page check off and no swap credit. -/
def cfgKill : Config :=
  ⟨[0, 1, 2, 4, 6, 15], 6, [1536, 2048, 3072, 4096, 5120, 6144], 6,
    [1536, 2048, 4096, 8192, 12288, 16384], 6, false, 0⟩

/-- A severely depleted snapshot: 100 free pages, everything else zero. -/
def snapLow : Snapshot := ⟨100, 0, 0, 0, 0, 0, 0, 0⟩

/-- An ordinary userspace process, oom_adj 10, 100 resident pages. -/
def victim1 : Proc := ⟨1, false, true, false, 10, 100⟩

/-- The same process after being signalled: `TIF_MEMDIE` is now set. -/
def victim1dying : Proc := ⟨1, false, true, true, 10, 100⟩

/-- A second process, oom_adj 12, 50 resident pages. -/
def victim2 : Proc := ⟨2, false, true, false, 12, 50⟩

/-- A snapshot with 500 file pages, 20 shmem pages and 100 pages of free
swap. -/
def snapSwap : Snapshot := ⟨0, 500, 20, 0, 0, 0, 0, 100⟩

/-- The default table with the default `fudgeswap = 512` budget. -/
def cfgSwap : Config :=
  ⟨[0, 1, 2, 4, 6, 15], 6, [1536, 2048, 3072, 4096, 5120, 6144], 6,
    [1536, 2048, 4096, 8192, 12288, 16384], 6, false, 512⟩

/-- A healthy snapshot: 50000 free pages. -/
def snapHigh : Snapshot := ⟨50000, 0, 0, 0, 0, 0, 0, 0⟩

/-- Two candidates with distinct priorities for exercising the scan. -/
def scanProcA : Proc := ⟨1, false, true, false, 5, 10⟩

/-- The higher-priority candidate of the pair. -/
def scanProcB : Proc := ⟨2, false, true, false, 7, 3⟩

/-- C10: swapping in the screen-off table on early suspend and restoring on
late resume leaves the active `lowmem_minfree` table exactly as it was
before the suspend, for every prior state of the three tables. -/
theorem suspend_resume_roundtrip (s : VokState) :
    (low_mem_late_resume (low_mem_early_suspend s)).lowmem_minfree = s.lowmem_minfree := rfl

/-- C2 counterexample: on the tiers `[(0, 768, 1536), (8, 4096, 8192)]` and
the snapshot `free = 2000, file = 5000, lru_file = 10000`, the evaluator does
NOT return the cutoff 8 — it returns none, because tier 1's file gate
compares the 5000 effective file pages against `min_free = 4096` (not
against `min_file = 8192`), and 5000 ≥ 4096. -/
theorem scenario_cutoff_counterexample :
    evalPressure cfgScenario 2000 5000 10000 ≠ some 8 ∧
    evalPressure cfgScenario 2000 5000 10000 = none := by decide

/-- C2 amended: on that table and snapshot, pressure evaluation returns
none (tier 0 passes on free pages, tier 1 passes its file gate since
5000 ≥ 4096 and its LRU gate since 10000 ≥ 8192), so `lowmem_shrink` takes
the no-tier-breached path and no victim selection occurs. -/
theorem scenario_returns_none :
    evalPressure cfgScenario 2000 5000 10000 = none ∧
    ∀ tasks st nr jif,
      lowmem_shrink cfgScenario snapScenario tasks st nr jif = (ShrinkResult.noTier, st) := by
  refine ⟨by decide, ?_⟩
  intro tasks st nr jif
  have h : shrinkMinAdj cfgScenario snapScenario = OOM_ADJUST_MAX + 1 := by decide
  simp [lowmem_shrink, h]

/-- C1: the kill path never writes `lowmem_deathpending_timeout` — the
returned module state equals the input state on every path of
`lowmem_shrink`.  Concretely: a first invocation under pressure kills pid 1
and leaves the deadline at its initial 0; a second invocation one jiffy
later, with the victim still flagged `TIF_MEMDIE`, does not defer
(`time_before_eq(1001, 0)` is false) and signals a second victim, pid 2,
instead of returning the deferred outcome the spec requires. -/
theorem missing_cooldown_mark :
    (∀ cfg s tasks st nr jif, (lowmem_shrink cfg s tasks st nr jif).2 = st) ∧
    lowmem_shrink cfgKill snapLow [victim1] ⟨0⟩ 128 1000 =
      (ShrinkResult.killed 1 100 (-100), ⟨0⟩) ∧
    lowmem_shrink cfgKill snapLow [victim1dying, victim2] ⟨0⟩ 128 1001 =
      (ShrinkResult.killed 2 50 (-50), ⟨0⟩) := by
  refine ⟨?_, by decide, by decide⟩
  intro cfg s tasks st nr jif
  by_cases h1 : shrinkMinAdj cfg s = OOM_ADJUST_MAX + 1
  · simp [lowmem_shrink, h1]
  · by_cases h2 : nr ≤ 0
    · simp [lowmem_shrink, h1, h2]
    · rcases h3 : scanGo jif st.deathpending_timeout (shrinkMinAdj cfg s) tasks none with _ | sel
      · simp [lowmem_shrink, h1, h2, h3]
      · cases sel <;> simp [lowmem_shrink, h1, h2, h3]

/-- C7: for a non-negative `fudgeswap` budget (within the `int` range), the
effective file-page count fed to the tier comparisons equals the raw
file-minus-shmem count plus `min(free swap, budget)`: the full budget when
free swap exceeds it, only the free swap when it is smaller, and nothing
when either is zero. -/
theorem effective_file_adds_min_swap (cfg : Config) (s : Snapshot)
    (h1 : 0 ≤ cfg.fudgeswap) (h2 : cfg.fudgeswap < 2 ^ 31) :
    shrinkOtherFile cfg s =
      ((s.nr_file : Int) - (s.nr_shmem : Int)) + min (s.freeswap : Int) cfg.fudgeswap := by
  have hmod : cfg.fudgeswap % 2 ^ 64 = cfg.fudgeswap := Int.emod_eq_of_lt h1 (by omega)
  unfold shrinkOtherFile otherFileVal
  simp only [hmod]
  rcases le_or_lt ((s.freeswap : Int)) cfg.fudgeswap with hc | hc
  · rw [min_eq_left hc]
    split_ifs <;> omega
  · rw [min_eq_right hc.le]
    split_ifs <;> omega

/-- Witness for C7: budget 512, free swap 100, file 500, shmem 20 — the
credit is the full 100 pages of free swap. -/
theorem effective_file_adds_min_swap_witness :
    0 ≤ cfgSwap.fudgeswap ∧ cfgSwap.fudgeswap < 2 ^ 31 ∧
    shrinkOtherFile cfgSwap snapSwap =
      ((snapSwap.nr_file : Int) - (snapSwap.nr_shmem : Int)) +
        min (snapSwap.freeswap : Int) cfgSwap.fudgeswap :=
  ⟨by decide, by decide, effective_file_adds_min_swap cfgSwap snapSwap (by decide) (by decide)⟩

/-- C8: when free pages meet every walked tier's `min_free`, pressure
evaluation returns none and `lowmem_shrink` takes the no-action path,
returning the untouched input state whatever the candidate list, cooldown
state, scan request or clock — so repeating the call yields the same result
and never mutates any selector state. -/
theorem no_breach_no_action (cfg : Config) (s : Snapshot)
    (h : ∀ i < arraySize cfg, cfg.minfree.getD i 0 ≤ (s.nr_free : Int)) :
    evalPressure cfg (shrinkOtherFree s) (shrinkOtherFile cfg s) (shrinkLruFile s) = none ∧
    ∀ tasks st nr jif,
      lowmem_shrink cfg s tasks st nr jif = (ShrinkResult.noTier, st) := by
  have heval :
      evalPressure cfg (shrinkOtherFree s) (shrinkOtherFile cfg s) (shrinkLruFile s) = none := by
    unfold evalPressure findBreachTier
    rw [Option.map_eq_none', List.find?_eq_none]
    intro t ht
    rcases List.mem_map.mp ht with ⟨i, hi, rfl⟩
    have hi' : i < arraySize cfg := List.mem_range.mp hi
    have hle := h i hi'
    intro hb
    simp only [breached, shrinkOtherFree, Bool.and_eq_true, decide_eq_true_eq] at hb
    omega
  refine ⟨heval, ?_⟩
  intro tasks st nr jif
  have hmadj : shrinkMinAdj cfg s = OOM_ADJUST_MAX + 1 := by
    unfold shrinkMinAdj min_adj_of
    rw [heval]
    rfl
  simp [lowmem_shrink, hmadj]

/-- Witness for C8: the default table against a snapshot with 50000 free
pages. -/
theorem no_breach_no_action_witness :
    (∀ i < arraySize cfgKill, cfgKill.minfree.getD i 0 ≤ (snapHigh.nr_free : Int)) ∧
    evalPressure cfgKill (shrinkOtherFree snapHigh) (shrinkOtherFile cfgKill snapHigh)
      (shrinkLruFile snapHigh) = none :=
  ⟨by decide, (no_breach_no_action cfgKill snapHigh (by decide)).1⟩

/-- On a list sorted by `minfree`, `find?` returns a satisfying element of
minimal `minfree`. -/
theorem find_sorted_min (p : Tier → Bool) :
    ∀ l : List Tier, l.Pairwise (fun a b => a.minfree ≤ b.minfree) →
      ∀ t, l.find? p = some t →
        t ∈ l ∧ p t = true ∧ ∀ u ∈ l, p u = true → t.minfree ≤ u.minfree := by
  intro l
  induction l with
  | nil => intro _ t h; simp at h
  | cons a l ih =>
    intro hp t h
    rcases List.pairwise_cons.mp hp with ⟨ha, hl⟩
    by_cases hpa : p a = true
    · rw [List.find?_cons_of_pos _ hpa] at h
      cases h
      refine ⟨List.mem_cons_self _ _, hpa, ?_⟩
      intro u hu _
      rcases List.mem_cons.mp hu with rfl | hu
      · exact le_refl _
      · exact ha u hu
    · rw [List.find?_cons_of_neg _ hpa] at h
      rcases ih hl t h with ⟨hmem, hpt, hmin⟩
      refine ⟨List.mem_cons_of_mem _ hmem, hpt, ?_⟩
      intro u hu hpu
      rcases List.mem_cons.mp hu with rfl | hu
      · exact absurd hpu hpa
      · exact hmin u hu hpu

/-- C3: on a table whose walked tiers are sorted ascending by `min_free`,
pressure evaluation returns none exactly when no tier satisfies the breach
condition, and when it returns a cutoff, that cutoff comes from a breached
tier of minimal `min_free` — never a later breached tier. -/
theorem evalPressure_first_breached (cfg : Config) (of ofi lru : Int)
    (hsort : (tiers cfg).Pairwise fun a b => a.minfree ≤ b.minfree) :
    (evalPressure cfg of ofi lru = none ↔
      ∀ t ∈ tiers cfg, ¬breached cfg of ofi lru t = true) ∧
    ∀ a, evalPressure cfg of ofi lru = some a →
      ∃ t ∈ tiers cfg, breached cfg of ofi lru t = true ∧ t.adj = a ∧
        ∀ u ∈ tiers cfg, breached cfg of ofi lru u = true → t.minfree ≤ u.minfree := by
  constructor
  · unfold evalPressure findBreachTier
    rw [Option.map_eq_none', List.find?_eq_none]
  · intro a ha
    rcases Option.map_eq_some'.mp ha with ⟨t, hfind, hadj⟩
    rcases find_sorted_min _ _ hsort t hfind with ⟨hmem, hbr, hmin⟩
    exact ⟨t, hmem, hbr, hadj, hmin⟩

/-- Witness for C3 at the scenario table with a depleted reading
(free = 100, file = 100, lru = 100). -/
theorem evalPressure_first_breached_witness :
    ((tiers cfgScenario).Pairwise fun a b => a.minfree ≤ b.minfree) ∧
    ((evalPressure cfgScenario 100 100 100 = none ↔
        ∀ t ∈ tiers cfgScenario, ¬breached cfgScenario 100 100 100 t = true) ∧
      ∀ a, evalPressure cfgScenario 100 100 100 = some a →
        ∃ t ∈ tiers cfgScenario, breached cfgScenario 100 100 100 t = true ∧ t.adj = a ∧
          ∀ u ∈ tiers cfgScenario, breached cfgScenario 100 100 100 u = true →
            t.minfree ≤ u.minfree) :=
  ⟨by decide, evalPressure_first_breached cfgScenario 100 100 100 (by decide)⟩

/-- Two predicates that agree on a list give the same `find?` result. -/
theorem find_congr_on {α : Type} (p q : α → Bool) :
    ∀ l : List α, (∀ x ∈ l, p x = q x) → l.find? p = l.find? q := by
  intro l
  induction l with
  | nil => intro _; rfl
  | cons a l ih =>
    intro h
    have ha := h a (List.mem_cons_self _ _)
    by_cases hpa : p a = true
    · rw [List.find?_cons_of_pos _ hpa, List.find?_cons_of_pos _ (ha ▸ hpa)]
    · rw [List.find?_cons_of_neg _ hpa, List.find?_cons_of_neg _ (ha ▸ hpa)]
      exact ih fun x hx => h x (List.mem_cons_of_mem _ hx)

/-- C6 counterexample: with `NR_FILE_PAGES = 0`, `NR_SHMEM = 100`, a swap
credit of 50 and the one-tier table (cutoff 5, minfree 30) against
free = 10: the code carries the unclamped `-100 + 50 = -50` into the
comparisons and breaches (cutoff 5), while the spec's clamp-to-zero reading
(`0 + 50 = 50 ≥ 30`) breaches nothing — the evaluator does not clamp. -/
theorem clamp_counterexample :
    shrinkOtherFile cfgNeg snapNeg = -50 ∧
    evalPressure cfgNeg (shrinkOtherFree snapNeg) (shrinkOtherFile cfgNeg snapNeg)
      (shrinkLruFile snapNeg) = some 5 ∧
    evalPressure cfgNeg (shrinkOtherFree snapNeg) (specClampedOtherFile cfgNeg snapNeg)
      (shrinkLruFile snapNeg) = none := by decide

/-- C6 amended: the evaluator feeds the possibly-negative derived file
counter into the signed comparisons unclamped; a negative value is below
every positive threshold, so against a table of positive `min_free` entries
the file gate of every tier reads as breached and evaluation degenerates to
the free-page gate — and it proceeds normally, producing an ordinary
some/none outcome rather than an error. -/
theorem negative_counter_used_raw (cfg : Config) (s : Snapshot)
    (h1 : shrinkOtherFile cfg s < 0)
    (h2 : ∀ t ∈ tiers cfg, 0 < t.minfree) :
    evalPressure cfg (shrinkOtherFree s) (shrinkOtherFile cfg s) (shrinkLruFile s) =
      ((tiers cfg).find? fun t => decide (shrinkOtherFree s < t.minfree)).map Tier.adj := by
  unfold evalPressure findBreachTier
  congr 1
  apply find_congr_on
  intro t ht
  have hpos := h2 t ht
  have hlt : shrinkOtherFile cfg s < t.minfree := by omega
  simp [breached, hlt]

/-- Witness for C6 amended: the racy snapshot yields a derived counter of
`-50` against the positive one-tier table, and evaluation equals the pure
free-gate walk. -/
theorem negative_counter_used_raw_witness :
    shrinkOtherFile cfgNeg snapNeg < 0 ∧
    (∀ t ∈ tiers cfgNeg, 0 < t.minfree) ∧
    evalPressure cfgNeg (shrinkOtherFree snapNeg) (shrinkOtherFile cfgNeg snapNeg)
        (shrinkLruFile snapNeg) =
      ((tiers cfgNeg).find? fun t => decide (shrinkOtherFree snapNeg < t.minfree)).map
        Tier.adj :=
  ⟨by decide, by decide, negative_counter_used_raw cfgNeg snapNeg (by decide) (by decide)⟩

/-- The walked prefix is insensitive to truncating all three arrays at
`array_size`. -/
theorem tiers_truncConfig (cfg : Config) : tiers (truncConfig cfg) = tiers cfg := by
  have hsz : arraySize (truncConfig cfg) = arraySize cfg := by
    have h6 : arraySize cfg ≤ 6 := by
      unfold arraySize
      omega
    show min (min 6 (arraySize cfg)) (arraySize cfg) = arraySize cfg
    omega
  unfold tiers
  rw [hsz]
  apply List.map_congr_left
  intro i hi
  have hi' : i < arraySize cfg := List.mem_range.mp hi
  unfold truncConfig
  dsimp
  simp only [List.getD_eq_getElem?_getD, List.getElem?_take_of_lt hi']

/-- C5 amended: the evaluator truncates to `min(capacity 6, adj count,
minfree count)` tiers — the declared `minfile` count is ignored — and
`lowmem_shrink` behaves exactly as on that truncated table, for every
snapshot, candidate list and state; in particular, with 6 priority entries
and 4 min_free entries it behaves as a 4-tier table. -/
theorem truncation_adj_minfree_only (cfg : Config) (s : Snapshot) (tasks : List Proc)
    (st : LmkState) (nr jif : Int) :
    lowmem_shrink (truncConfig cfg) s tasks st nr jif = lowmem_shrink cfg s tasks st nr jif := by
  have hb : breached (truncConfig cfg) = breached cfg := rfl
  have hmadj : shrinkMinAdj (truncConfig cfg) s = shrinkMinAdj cfg s := by
    unfold shrinkMinAdj min_adj_of evalPressure findBreachTier
    rw [tiers_truncConfig, hb]
    rfl
  unfold lowmem_shrink
  rw [hmadj]

/-- C5 counterexample: on a table declaring 6 `adj` entries, 6 `minfree`
entries but only 1 `minfile` entry (file-page check on), the code still
walks 6 tiers and breaches tier 1 through `lowmem_minfile[1]`, returning
cutoff 1, while the spec's shortest-consistent-prefix table (1 tier) finds
no breach — so evaluation does not behave as the shortest prefix across all
parallel fields. -/
theorem minfile_size_ignored_counterexample :
    evalPressure cfgMismatch 150 300 60 = some 1 ∧
    evalPressure (specShortestConfig cfgMismatch) 150 300 60 = none := by decide

/-- Strict comparison of (oom_adj, rss) pairs, unfolded. -/
theorem pairF_lt_iff (s t : Proc) :
    pairF s < pairF t ↔
      s.oom_adj < t.oom_adj ∨ (s.oom_adj = t.oom_adj ∧ s.rss < t.rss) := by
  unfold pairF
  rw [Prod.Lex.lt_iff]

/-- Non-strict comparison of (oom_adj, rss) pairs, unfolded. -/
theorem pairF_le_iff (s t : Proc) :
    pairF s ≤ pairF t ↔
      s.oom_adj < t.oom_adj ∨ (s.oom_adj = t.oom_adj ∧ s.rss ≤ t.rss) := by
  unfold pairF
  rw [Prod.Lex.le_iff]

/-- The scan loop, conditioned on completing without the death-pending
abort, computes exactly the running-best fold of `List.argmax` over the
filtered candidate list: a new candidate replaces the current best only when
its (oom_adj, rss) pair is strictly lexicographically larger. -/
theorem scanGo_done_foldl (jif tmo madj : Int) :
    ∀ (l : List Proc) (best r : Option Proc),
      scanGo jif tmo madj l best = ScanOut.done r →
      r = List.foldl (List.argAux fun b c => pairF c < pairF b) best (eligible madj l) := by
  intro l
  induction l with
  | nil =>
    intro best r h
    rw [scanGo.eq_def] at h
    simp only [] at h
    cases h
    rfl
  | cons t rest ih =>
    intro best r h
    rw [scanGo.eq_def] at h
    simp only [] at h
    by_cases hk : t.kthread = true
    · rw [if_pos hk] at h
      rw [show eligible madj (t :: rest) = eligible madj rest by
        simp [eligible, List.filter_cons, hk]]
      exact ih best r h
    · rw [if_neg hk] at h
      have hk' : t.kthread = false := by revert hk; cases t.kthread <;> simp
      by_cases hm : t.has_mm = true
      · rw [if_neg (by simp [hm])] at h
        by_cases hd : (t.memdie && timeBeforeEq jif tmo) = true
        · rw [if_pos hd] at h
          cases h
        · rw [if_neg hd] at h
          by_cases ho : t.oom_adj < madj
          · rw [if_pos ho] at h
            rw [show eligible madj (t :: rest) = eligible madj rest by
              simp [eligible, List.filter_cons, not_le.mpr ho]]
            exact ih best r h
          · rw [if_neg ho] at h
            by_cases hr : t.rss ≤ 0
            · rw [if_pos hr] at h
              rw [show eligible madj (t :: rest) = eligible madj rest by
                simp [eligible, List.filter_cons, not_lt.mpr hr]]
              exact ih best r h
            · rw [if_neg hr] at h
              have he : eligible madj (t :: rest) = t :: eligible madj rest := by
                simp [eligible, List.filter_cons, hk', hm, not_lt.mp ho, not_le.mp hr]
              rw [he, List.foldl_cons]
              cases best with
              | none => exact ih (some t) r h
              | some s =>
                simp only [] at h
                by_cases h1 : t.oom_adj < s.oom_adj
                · rw [if_pos h1] at h
                  have ha : List.argAux (fun b c => pairF c < pairF b) (some s) t
                      = some s := by
                    simp only [List.argAux]
                    rw [if_neg]
                    rw [pairF_lt_iff]
                    omega
                  rw [ha]
                  exact ih (some s) r h
                · rw [if_neg h1] at h
                  by_cases h2 : t.oom_adj = s.oom_adj ∧ t.rss ≤ s.rss
                  · rw [if_pos h2] at h
                    have ha : List.argAux (fun b c => pairF c < pairF b) (some s) t
                        = some s := by
                      simp only [List.argAux]
                      rw [if_neg]
                      rw [pairF_lt_iff]
                      omega
                    rw [ha]
                    exact ih (some s) r h
                  · rw [if_neg h2] at h
                    have ha : List.argAux (fun b c => pairF c < pairF b) (some s) t
                        = some t := by
                      simp only [List.argAux]
                      rw [if_pos]
                      rw [pairF_lt_iff]
                      rw [not_and_or] at h2
                      rcases h2 with h2 | h2 <;> omega
                    rw [ha]
                    exact ih (some t) r h
      · have hm' : t.has_mm = false := by revert hm; cases t.has_mm <;> simp
        rw [if_pos (by simp [hm'])] at h
        rw [show eligible madj (t :: rest) = eligible madj rest by
          simp [eligible, List.filter_cons, hm']]
        exact ih best r h

/-- C4: whenever the scan completes with a selection, the victim is not a
kernel thread, has an mm, sits at or above the cutoff, has a positive
resident set, and is lexicographically maximal among the filtered
candidates: no candidate has strictly higher oom_adj, none with equal
oom_adj has strictly more resident pages, and among candidates tying on
both fields the victim occurs no later in enumeration order — a later
equal-or-smaller candidate never displaces it. -/
theorem victim_selection_max (jif tmo madj : Int) (tasks : List Proc) (sel : Proc)
    (h : scanGo jif tmo madj tasks none = ScanOut.done (some sel)) :
    sel.kthread = false ∧ sel.has_mm = true ∧ madj ≤ sel.oom_adj ∧ 0 < sel.rss ∧
    (∀ t ∈ eligible madj tasks,
      t.oom_adj < sel.oom_adj ∨ (t.oom_adj = sel.oom_adj ∧ t.rss ≤ sel.rss)) ∧
    ∀ t ∈ eligible madj tasks, t.oom_adj = sel.oom_adj → t.rss = sel.rss →
      (eligible madj tasks).indexOf sel ≤ (eligible madj tasks).indexOf t := by
  have hfold := scanGo_done_foldl jif tmo madj tasks none (some sel) h
  have hargmax : sel ∈ List.argmax pairF (eligible madj tasks) := by
    rw [Option.mem_def]
    exact hfold.symm
  have hmem : sel ∈ eligible madj tasks := List.argmax_mem hargmax
  have hfil := (List.mem_filter.mp hmem).2
  simp only [Bool.and_eq_true, Bool.not_eq_true', decide_eq_true_eq] at hfil
  obtain ⟨⟨⟨hk, hm⟩, ho⟩, hr⟩ := hfil
  refine ⟨hk, hm, ho, hr, ?_, ?_⟩
  · intro t ht
    have hle := List.le_of_mem_argmax ht hargmax
    exact (pairF_le_iff t sel).mp hle
  · intro t ht h1 h2
    exact List.index_of_argmax hargmax ht
      ((pairF_le_iff sel t).mpr (Or.inr ⟨h1.symm, le_of_eq h2.symm⟩))

/-- Witness for C4: of two live candidates with oom_adj 5 and 7, the scan
selects the oom_adj-7 one, and it satisfies every clause of the selection
property. -/
theorem victim_selection_max_witness :
    scanGo 1000 0 0 [scanProcA, scanProcB] none = ScanOut.done (some scanProcB) ∧
    (scanProcB.kthread = false ∧ scanProcB.has_mm = true ∧ (0 : Int) ≤ scanProcB.oom_adj ∧
      0 < scanProcB.rss ∧
      (∀ t ∈ eligible 0 [scanProcA, scanProcB],
        t.oom_adj < scanProcB.oom_adj ∨
          (t.oom_adj = scanProcB.oom_adj ∧ t.rss ≤ scanProcB.rss)) ∧
      ∀ t ∈ eligible 0 [scanProcA, scanProcB], t.oom_adj = scanProcB.oom_adj →
        t.rss = scanProcB.rss →
        (eligible 0 [scanProcA, scanProcB]).indexOf scanProcB ≤
          (eligible 0 [scanProcA, scanProcB]).indexOf t) :=
  ⟨by decide, victim_selection_max 1000 0 0 [scanProcA, scanProcB] scanProcB (by decide)⟩

/-- A scan over tasks that each hit one of the skip branches finishes with
its running best unchanged. -/
theorem scanGo_all_skipped (jif tmo madj : Int) :
    ∀ l : List Proc,
      (∀ t ∈ l, t.kthread = true ∨ t.has_mm = false ∨
        (¬(t.memdie && timeBeforeEq jif tmo) = true ∧ (t.oom_adj < madj ∨ t.rss ≤ 0))) →
      ∀ best, scanGo jif tmo madj l best = ScanOut.done best := by
  intro l
  induction l with
  | nil => intro _ best; rfl
  | cons t rest ih =>
    intro h best
    have ht := h t (List.mem_cons_self _ _)
    have hrest := fun u hu => h u (List.mem_cons_of_mem _ hu)
    rw [scanGo.eq_def]
    simp only []
    by_cases hk : t.kthread = true
    · rw [if_pos hk]
      exact ih hrest best
    · have hk' : t.kthread = false := by revert hk; cases t.kthread <;> simp
      rw [if_neg hk]
      by_cases hm : t.has_mm = true
      · rw [if_neg (by simp [hm])]
        rcases ht with h0 | h0 | ⟨hd, hskip⟩
        · exact absurd h0 hk
        · rw [hm] at h0
          cases h0
        · rw [if_neg hd]
          by_cases ho : t.oom_adj < madj
          · rw [if_pos ho]
            exact ih hrest best
          · rw [if_neg ho]
            rcases hskip with h1 | h1
            · exact absurd h1 ho
            · rw [if_pos h1]
              exact ih hrest best
      · have hm' : t.has_mm = false := by revert hm; cases t.has_mm <;> simp
        rw [if_pos (by simp [hm'])]
        exact ih hrest best

/-- C9: under a breached tier (with a cutoff that is not the sentinel), a
positive scan request, no candidate inside the death-pending window and no
candidate surviving the filter, `lowmem_shrink` returns the distinct
no-eligible-victim outcome (-1 to the shrinker core), signals nothing and
leaves the module state untouched. -/
theorem no_eligible_victim (cfg : Config) (s : Snapshot) (tasks : List Proc)
    (st : LmkState) (nr jif : Int)
    (hmin : shrinkMinAdj cfg s ≠ OOM_ADJUST_MAX + 1)
    (hnr : 0 < nr)
    (hel : eligible (shrinkMinAdj cfg s) tasks = [])
    (hgrace : ∀ t ∈ tasks, t.kthread = false → t.has_mm = true →
      ¬(t.memdie && timeBeforeEq jif st.deathpending_timeout) = true) :
    lowmem_shrink cfg s tasks st nr jif = (ShrinkResult.noVictim, st) := by
  have hskip : ∀ t ∈ tasks, t.kthread = true ∨ t.has_mm = false ∨
      (¬(t.memdie && timeBeforeEq jif st.deathpending_timeout) = true ∧
        (t.oom_adj < shrinkMinAdj cfg s ∨ t.rss ≤ 0)) := by
    intro t ht
    by_cases hk : t.kthread = true
    · exact Or.inl hk
    · have hk' : t.kthread = false := by revert hk; cases t.kthread <;> simp
      by_cases hm : t.has_mm = true
      · refine Or.inr (Or.inr ⟨hgrace t ht hk' hm, ?_⟩)
        have hnp := List.filter_eq_nil_iff.mp hel t ht
        simp only [hk', hm, Bool.not_false, Bool.true_and, Bool.and_eq_true,
          decide_eq_true_eq, not_and] at hnp
        omega
      · exact Or.inr (Or.inl (by revert hm; cases t.has_mm <;> simp))
  have hscan := scanGo_all_skipped jif st.deathpending_timeout (shrinkMinAdj cfg s)
    tasks hskip none
  simp only [lowmem_shrink]
  rw [if_neg hmin, if_neg (not_le.mpr hnr), hscan]

/-- Witness for C9: the one-tier table breached by the racy snapshot, with
an empty candidate list. -/
theorem no_eligible_victim_witness :
    shrinkMinAdj cfgNeg snapNeg ≠ OOM_ADJUST_MAX + 1 ∧
    lowmem_shrink cfgNeg snapNeg [] ⟨0⟩ 1 5 = (ShrinkResult.noVictim, ⟨0⟩) :=
  ⟨by decide,
    no_eligible_victim cfgNeg snapNeg [] ⟨0⟩ 1 5 (by decide) (by decide) rfl
      (by simp)⟩

end LMK
